import Mathlib

/-!
Shallow embedding of the broadcast hub of `src/main.py` (the `ConnectionManager`
class and the `websocket_endpoint` coroutine), together with proofs of the
specified properties of registration, deregistration and broadcast.

Modelling choices, each justified by the source:
* A connection handle (`WebSocket` object identity in Python) is an opaque
  handle; we model it as a natural number with decidable equality.
* The registry `self.active` is a Python `list`; we model it as `List Conn`.
  `connect` appends (`list.append`); `disconnect` removes the first occurrence
  after a membership test (`if ws in active: active.remove(ws)`).
* A broadcast message is a flat Python dict from string keys to values; the
  values occurring in the program are strings, and `json.dumps` raises on a
  value it cannot serialize.  `PyVal.blob` stands for such a non-serializable
  object; `dumps` returns `none` exactly when Python `json.dumps` raises.
* `broadcast` serializes once, snapshots the registry (`list(self.active)`),
  and per target either delivers or — on any send exception — calls
  `disconnect` on that target and continues.  The send outcome is modelled by
  an oracle `sendOk : Conn → Bool`.  Each iteration of the loop is recorded as
  an `Attempt`; a raised serialization error is recorded in the `raised` flag
  of the result, with the registry returned unchanged.
* `websocket_endpoint` accepts, registers, broadcasts the joined notice, then
  loops reading text frames (each broadcast as a chat message stamped with a
  timestamp taken at receipt, supplied here as data) until the read raises
  WebSocketDisconnect — the termination event of the read loop — whereupon it
  deregisters and broadcasts the left notice.  The inbound stream is modelled
  as the finite list of (text, timestamp) frames received before disconnect.
-/

namespace VoidSpark

/-- Opaque connection handle (`WebSocket` object identity). -/
abbrev Conn := Nat

/-- A Python value appearing in a broadcast message: a string, or an object
`json.dumps` cannot serialize (a socket, a datetime, ...). -/
inductive PyVal where
  | str (s : String)
  | blob
deriving DecidableEq

/-- A flat Python dict with string keys, as passed to `manager.broadcast`. -/
abbrev PyDict := List (String × PyVal)

/-- JSON string escaping of one character (model of the escaping done by
`json.dumps`). -/
def escChar (c : Char) : String :=
  if c = '\\' then "\\\\" else if c = '"' then "\\\"" else String.singleton c

/-- JSON string escaping (model of the escaping done by `json.dumps`). -/
def jsonEscape (s : String) : String :=
  String.join (s.data.map escChar)

/-- Serialization of one value; `none` models a raised `TypeError`. -/
def dumpVal : PyVal → Option String
  | .str s => some ("\"" ++ jsonEscape s ++ "\"")
  | .blob => none

/-- Serialization of the fields of a dict, separated by ", " as with the
default separators of `json.dumps`. -/
def dumpFields : PyDict → Option String
  | [] => some ""
  | [(k, v)] => (dumpVal v).map (fun sv => "\"" ++ jsonEscape k ++ "\": " ++ sv)
  | (k, v) :: rest => do
      let sv ← dumpVal v
      let sr ← dumpFields rest
      pure ("\"" ++ jsonEscape k ++ "\": " ++ sv ++ ", " ++ sr)

/-- Model of `json.dumps` on a flat dict; `none` models a raised exception. -/
def dumps (m : PyDict) : Option String :=
  (dumpFields m).map (fun body => "\x7b" ++ body ++ "\x7d")

/-- `ConnectionManager.connect`: accept the handshake, then
`self.active.append(websocket)`. -/
def connect (c : Conn) (active : List Conn) : List Conn :=
  active ++ [c]

/-- `ConnectionManager.disconnect`:
`if websocket in self.active: self.active.remove(websocket)` —
`list.remove` deletes the first occurrence only. -/
def disconnect (c : Conn) (active : List Conn) : List Conn :=
  if c ∈ active then active.erase c else active

/-- One iteration of the broadcast loop: the target connection, the payload
handed to `send_text`, and whether the send succeeded (`ok = false` models a
raised send exception, absorbed by the `except` clause). -/
structure Attempt where
  target : Conn
  payload : String
  ok : Bool
deriving DecidableEq

/-- The loop `for connection in list(self.active): try: send / except:
self.disconnect(connection)`.  First list argument is the snapshot being
iterated, second is the live registry being mutated. -/
def broadcastLoop (sendOk : Conn → Bool) (data : String) :
    List Conn → List Conn → List Conn × List Attempt
  | [], active => (active, [])
  | c :: rest, active =>
    if sendOk c then
      let r := broadcastLoop sendOk data rest active
      (r.1, ⟨c, data, true⟩ :: r.2)
    else
      let r := broadcastLoop sendOk data rest (disconnect c active)
      (r.1, ⟨c, data, false⟩ :: r.2)

/-- Outcome of one `broadcast` call: whether it raised (serialization failure
propagates to the caller), the registry afterwards, and the send attempts made
in iteration order. -/
structure BroadcastResult where
  raised : Bool
  active : List Conn
  attempts : List Attempt
deriving DecidableEq

/-- `ConnectionManager.broadcast`: `data = json.dumps(message)` once, then the
snapshot-and-iterate loop.  If serialization raises, no snapshot is taken, no
send is attempted and the registry is untouched. -/
def broadcast (sendOk : Conn → Bool) (message : PyDict) (active : List Conn) :
    BroadcastResult :=
  match dumps message with
  | none => ⟨true, active, []⟩
  | some data =>
    let r := broadcastLoop sendOk data active active
    ⟨false, r.1, r.2⟩

/-- The `system` "Player joined" message broadcast on connect. -/
def joinedMsg : PyDict :=
  [("type", .str "system"), ("message", .str "Player joined")]

/-- The `system` "Player left" message broadcast on disconnect. -/
def leftMsg : PyDict :=
  [("type", .str "system"), ("message", .str "Player left")]

/-- The `chat` message rebroadcast for a received text frame, stamped with the
ISO-8601 UTC timestamp taken at receipt. -/
def chatMsg (text ts : String) : PyDict :=
  [("type", .str "chat"), ("text", .str text), ("ts", .str ts)]

/-- The wire form of `joinedMsg`. -/
def joinedData : String :=
  "\x7b\"type\": \"system\", \"message\": \"Player joined\"\x7d"

/-- The wire form of `leftMsg`. -/
def leftData : String :=
  "\x7b\"type\": \"system\", \"message\": \"Player left\"\x7d"

/-- One call to `manager.broadcast` made by the endpoint, with its argument
and its outcome. -/
structure BroadcastCall where
  message : PyDict
  result : BroadcastResult
deriving DecidableEq

/-- The `while True: text = await websocket.receive_text(); await
manager.broadcast(chat...)` loop, over the finite inbound stream of
(text, timestamp-at-receipt) frames. -/
def chatLoop (sendOk : Conn → Bool) :
    List (String × String) → List Conn → List Conn × List BroadcastCall
  | [], active => (active, [])
  | (t, ts) :: rest, active =>
    let r := broadcast sendOk (chatMsg t ts) active
    let k := chatLoop sendOk rest r.active
    (k.1, ⟨chatMsg t ts, r⟩ :: k.2)

/-- The whole `websocket_endpoint` driver for one connection `c`: connect,
broadcast the joined notice, relay each inbound frame as chat, and on
WebSocketDisconnect — the read loop's termination event (peer disconnect,
explicit close, read error) — disconnect and broadcast the left notice.
Returns the final registry and the trace of broadcast calls made. -/
def websocket_endpoint (sendOk : Conn → Bool) (c : Conn)
    (inbound : List (String × String)) (active : List Conn) :
    List Conn × List BroadcastCall :=
  let a1 := connect c active
  let r0 := broadcast sendOk joinedMsg a1
  let k := chatLoop sendOk inbound r0.active
  let a3 := disconnect c k.1
  let r1 := broadcast sendOk leftMsg a3
  (r1.active, ⟨joinedMsg, r0⟩ :: (k.2 ++ [⟨leftMsg, r1⟩]))

/-! ### Basic lemmas about the embedded operations -/

theorem disconnect_eq_erase (c : Conn) (a : List Conn) :
    disconnect c a = a.erase c := by
  unfold disconnect
  by_cases h : c ∈ a
  · simp [h]
  · simp [h, List.erase_of_not_mem h]

theorem dumps_joined : dumps joinedMsg = some joinedData := by
  decide

theorem dumps_left : dumps leftMsg = some leftData := by
  decide

theorem dumps_chat_isSome (t ts : String) : (dumps (chatMsg t ts)).isSome := by
  rfl

/-- The attempts made by the loop depend only on the snapshot: one attempt per
snapshot entry, in order, all carrying the single serialized payload. -/
theorem broadcastLoop_attempts (sendOk : Conn → Bool) (data : String)
    (snap active : List Conn) :
    (broadcastLoop sendOk data snap active).2 =
      snap.map (fun c => ⟨c, data, sendOk c⟩) := by
  induction snap generalizing active with
  | nil => rfl
  | cons c rest ih =>
    cases h : sendOk c <;> simp [broadcastLoop, h, ih]

/-- The loop never adds to the registry. -/
theorem broadcastLoop_active_sublist (sendOk : Conn → Bool) (data : String)
    (snap active : List Conn) :
    (broadcastLoop sendOk data snap active).1.Sublist active := by
  induction snap generalizing active with
  | nil => exact List.Sublist.refl _
  | cons c rest ih =>
    cases h : sendOk c with
    | true => simpa [broadcastLoop, h] using ih active
    | false =>
      have h1 := ih (disconnect c active)
      have h2 : (disconnect c active).Sublist active := by
        rw [disconnect_eq_erase]; exact List.erase_sublist _ _
      simpa [broadcastLoop, h] using h1.trans h2

/-- A connection whose sends succeed is never removed by the loop. -/
theorem broadcastLoop_mem_active (sendOk : Conn → Bool) (data : String)
    (snap : List Conn) {active : List Conn} {x : Conn}
    (hok : sendOk x = true) (hx : x ∈ active) :
    x ∈ (broadcastLoop sendOk data snap active).1 := by
  induction snap generalizing active with
  | nil => simpa [broadcastLoop] using hx
  | cons c rest ih =>
    cases h : sendOk c with
    | true => simpa [broadcastLoop, h] using ih hx
    | false =>
      have hne : x ≠ c := by
        intro he; rw [he] at hok; rw [hok] at h; cases h
      have hx2 : x ∈ disconnect c active := by
        rw [disconnect_eq_erase]
        exact (List.mem_erase_of_ne hne).mpr hx
      simpa [broadcastLoop, h] using ih hx2

/-- A connection whose sends fail is fully removed by the loop, provided the
registry holds no more copies of it than the snapshot still to be visited. -/
theorem broadcastLoop_not_mem_of_fail (sendOk : Conn → Bool) (data : String)
    {f : Conn} (hfail : sendOk f = false) :
    ∀ (snap active : List Conn), active.count f ≤ snap.count f →
      f ∉ (broadcastLoop sendOk data snap active).1 := by
  intro snap
  induction snap with
  | nil =>
    intro active hcnt
    simp only [List.count_nil, Nat.le_zero, List.count_eq_zero] at hcnt
    simpa [broadcastLoop] using hcnt
  | cons c rest ih =>
    intro active hcnt
    cases h : sendOk c with
    | true =>
      have hne : f ≠ c := by
        intro he; rw [← he] at h; rw [hfail] at h; cases h
      rw [List.count_cons_of_ne hne] at hcnt
      simpa [broadcastLoop, h] using ih active hcnt
    | false =>
      by_cases hcf : c = f
      · subst hcf
        rw [List.count_cons_self] at hcnt
        have hcnt2 : (disconnect c active).count c ≤ rest.count c := by
          rw [disconnect_eq_erase, List.count_erase_self]
          omega
        simpa [broadcastLoop, h] using ih (disconnect c active) hcnt2
      · have hne : f ≠ c := fun he => hcf he.symm
        rw [List.count_cons_of_ne hne] at hcnt
        have hcnt2 : (disconnect c active).count f ≤ rest.count f := by
          rw [disconnect_eq_erase, List.count_erase_of_ne hne]
          exact hcnt
        simpa [broadcastLoop, h] using ih (disconnect c active) hcnt2

/-- `broadcast` never grows the registry. -/
theorem broadcast_active_sublist (sendOk : Conn → Bool) (m : PyDict)
    (active : List Conn) :
    (broadcast sendOk m active).active.Sublist active := by
  unfold broadcast
  cases hd : dumps m with
  | none => exact List.Sublist.refl _
  | some data => exact broadcastLoop_active_sublist sendOk data active active

/-- A connection whose sends succeed survives any `broadcast`. -/
theorem broadcast_mem_active (sendOk : Conn → Bool) (m : PyDict)
    {active : List Conn} {x : Conn} (hok : sendOk x = true) (hx : x ∈ active) :
    x ∈ (broadcast sendOk m active).active := by
  unfold broadcast
  cases hd : dumps m with
  | none => exact hx
  | some data => exact broadcastLoop_mem_active sendOk data active hok hx

/-- The chat loop never grows the registry. -/
theorem chatLoop_active_sublist (sendOk : Conn → Bool)
    (inbound : List (String × String)) (active : List Conn) :
    (chatLoop sendOk inbound active).1.Sublist active := by
  induction inbound generalizing active with
  | nil => exact List.Sublist.refl _
  | cons p rest ih =>
    obtain ⟨t, ts⟩ := p
    have h1 := ih (broadcast sendOk (chatMsg t ts) active).active
    have h2 := broadcast_active_sublist sendOk (chatMsg t ts) active
    simpa [chatLoop] using h1.trans h2

/-- A connection whose sends succeed survives the chat loop. -/
theorem chatLoop_mem_active (sendOk : Conn → Bool)
    (inbound : List (String × String)) {active : List Conn} {x : Conn}
    (hok : sendOk x = true) (hx : x ∈ active) :
    x ∈ (chatLoop sendOk inbound active).1 := by
  induction inbound generalizing active with
  | nil => simpa [chatLoop] using hx
  | cons p rest ih =>
    obtain ⟨t, ts⟩ := p
    have h1 := broadcast_mem_active sendOk (chatMsg t ts) hok hx
    simpa [chatLoop] using ih h1

/-- The messages of the chat-loop trace are exactly the inbound frames,
wrapped: one chat broadcast per received frame, verbatim text. -/
theorem chatLoop_trace (sendOk : Conn → Bool)
    (inbound : List (String × String)) (active : List Conn) :
    (chatLoop sendOk inbound active).2.map (fun call => call.message) =
      inbound.map (fun p => chatMsg p.1 p.2) := by
  induction inbound generalizing active with
  | nil => rfl
  | cons p rest ih =>
    obtain ⟨t, ts⟩ := p
    simp [chatLoop, ih]

/-- The full trace of broadcast calls of one endpoint run: one joined notice,
one chat per inbound frame, one left notice, in that order. -/
theorem websocket_endpoint_trace (sendOk : Conn → Bool) (c : Conn)
    (inbound : List (String × String)) (active : List Conn) :
    (websocket_endpoint sendOk c inbound active).2.map
        (fun call => call.message) =
      joinedMsg :: (inbound.map (fun p => chatMsg p.1 p.2) ++ [leftMsg]) := by
  unfold websocket_endpoint
  simp [chatLoop_trace]

/-- Folding `connect` just appends the registrations in order. -/
theorem foldl_connect (l init : List Conn) :
    l.foldl (fun a c => connect c a) init = init ++ l := by
  induction l generalizing init with
  | nil => simp
  | cons c rest ih =>
    rw [List.foldl_cons, ih]
    simp [connect]

/-- Folding `disconnect` over distinct present connections removes exactly one
entry per call. -/
theorem foldl_disconnect_length :
    ∀ (ds r : List Conn), ds.Nodup → r.Nodup → (∀ d ∈ ds, d ∈ r) →
      (ds.foldl (fun a d => disconnect d a) r).length = r.length - ds.length := by
  intro ds
  induction ds with
  | nil => intro r _ _ _; simp
  | cons d rest ih =>
    intro r hd hr hsub
    rw [List.nodup_cons] at hd
    have hdr : d ∈ r := hsub d (by simp)
    have hstep : (List.foldl (fun a d => disconnect d a) r (d :: rest)) =
        List.foldl (fun a d => disconnect d a) (r.erase d) rest := by
      simp [disconnect_eq_erase]
    have hlen : (r.erase d).length + 1 = r.length :=
      List.length_erase_add_one hdr
    have hrec := ih (r.erase d) hd.2 (hr.erase d) (by
      intro x hx
      have hne : x ≠ d := by
        intro he; rw [he] at hx; exact hd.1 hx
      exact (List.mem_erase_of_ne hne).mpr (hsub x (by simp [hx])))
    rw [hstep, hrec]
    simp only [List.length_cons]
    omega

/-- A duplicate-free list whose members are all equal to `c` has at most one
entry. -/
theorem length_le_one_of_nodup_const {α : Type} {l : List α} {c : α}
    (hnd : l.Nodup) (h : ∀ x ∈ l, x = c) : l.length ≤ 1 := by
  match l with
  | [] => simp
  | [x] => simp
  | x :: y :: rest =>
    exfalso
    have hx := h x (by simp)
    have hy := h y (by simp)
    rw [List.nodup_cons] at hnd
    exact hnd.1 (by rw [hx, ← hy]; simp)

/-! ### Claim theorems -/

/-- C3, counterexample: `ConnectionManager.connect` appends unconditionally
(`self.active.append(websocket)`), so registering a connection that is already
present is not a no-op — it changes the registry, leaving a duplicate entry. -/
theorem C3_counterexample :
    connect 0 [0] ≠ [0] ∧ (connect 0 [0]).count 0 = 2 ∧
      ¬ (connect 0 [0]).Nodup := by
  decide

/-- C3, amended: `connect` always appends, so registering ANY connection —
present or not — grows the registry by exactly one (registering an
already-present connection duplicates it rather than being a no-op).  When
registrations respect the stated precondition (the connection is not already
registered), the registry stays duplicate-free; N registrations of distinct
connections starting from an empty registry followed by M deregistrations of a
subset of them leave exactly N − M entries. -/
theorem C3_register_size_invariant (regs dergs : List Conn)
    (hr : regs.Nodup) (hd : dergs.Nodup) (hsub : ∀ d ∈ dergs, d ∈ regs) :
    (∀ (c : Conn) (a : List Conn), (connect c a).length = a.length + 1) ∧
    (∀ (c : Conn) (a : List Conn), c ∉ a → a.Nodup → (connect c a).Nodup) ∧
    regs.foldl (fun a c => connect c a) [] = regs ∧
    (dergs.foldl (fun a d => disconnect d a)
        (regs.foldl (fun a c => connect c a) [])).length =
      regs.length - dergs.length := by
  refine ⟨?_, ?_, ?_, ?_⟩
  · intro c a; simp [connect]
  · intro c a hc ha
    simp [connect, List.nodup_append, ha, hc]
  · simpa using foldl_connect regs []
  · rw [foldl_connect regs []]
    simpa using foldl_disconnect_length dergs regs hd hr hsub

theorem C3_witness :
    ([0, 1, 2] : List Conn).Nodup ∧ ([1] : List Conn).Nodup ∧
    (∀ d ∈ ([1] : List Conn), d ∈ ([0, 1, 2] : List Conn)) ∧
    (([1] : List Conn).foldl (fun a d => disconnect d a)
        (([0, 1, 2] : List Conn).foldl (fun a c => connect c a) [])).length =
      ([0, 1, 2] : List Conn).length - ([1] : List Conn).length :=
  ⟨by decide, by decide, by decide,
    (C3_register_size_invariant [0, 1, 2] [1] (by decide) (by decide)
      (by decide)).2.2.2⟩

/-- C4, counterexample: `ConnectionManager.disconnect` uses `list.remove`,
which deletes only the first occurrence; on a registry holding a duplicate
(reachable because `connect` appends unconditionally), a second `disconnect`
call has a further observable effect, so "calling Deregister any number of
times has the same net effect on the registry as calling it once" fails for
the registry state `[0, 0]`. -/
theorem C4_counterexample :
    disconnect 0 (disconnect 0 [0, 0]) ≠ disconnect 0 [0, 0] := by
  decide

/-- C4, amended: on every duplicate-free registry state (the states reachable
when registrations respect the freshness precondition), `disconnect` is
idempotent and total: a second call is a no-op, the connection is gone after
one call, a call for an absent connection leaves the registry unchanged and
never errors, and no other connection's membership is affected. -/
theorem C4_deregister_idempotent (c : Conn) (active : List Conn)
    (hnd : active.Nodup) :
    disconnect c (disconnect c active) = disconnect c active ∧
    c ∉ disconnect c active ∧
    (c ∉ active → disconnect c active = active) ∧
    (∀ x : Conn, x ≠ c → (x ∈ disconnect c active ↔ x ∈ active)) := by
  have h1 : c ∉ disconnect c active := by
    rw [disconnect_eq_erase]
    exact hnd.not_mem_erase
  refine ⟨?_, h1, ?_, ?_⟩
  · generalize hD : disconnect c active = d at h1 ⊢
    simp [disconnect, h1]
  · intro hc; simp [disconnect, hc]
  · intro x hx
    rw [disconnect_eq_erase]
    exact List.mem_erase_of_ne hx

theorem C4_witness :
    ([1, 2, 3] : List Conn).Nodup ∧
    (disconnect 2 (disconnect 2 [1, 2, 3]) = disconnect 2 [1, 2, 3] ∧
      2 ∉ disconnect 2 [1, 2, 3] ∧
      (2 ∉ ([1, 2, 3] : List Conn) → disconnect 2 [1, 2, 3] = [1, 2, 3]) ∧
      (∀ x : Conn, x ≠ 2 → (x ∈ disconnect 2 [1, 2, 3] ↔ x ∈ [1, 2, 3]))) :=
  ⟨by decide, C4_deregister_idempotent 2 [1, 2, 3] (by decide)⟩

/-- C10: `broadcast` runs `data = json.dumps(message)` before taking the
snapshot or touching any connection; if serialization raises, the exception
propagates to the caller, no delivery attempt is made, and the registry is
left exactly as it was. -/
theorem C10_serialization_failure_atomic (sendOk : Conn → Bool) (m : PyDict)
    (active : List Conn) (hser : dumps m = none) :
    broadcast sendOk m active = ⟨true, active, []⟩ := by
  simp [broadcast, hser]

theorem C10_witness :
    dumps [("boom", PyVal.blob)] = none ∧
    broadcast (fun _ => true) [("boom", PyVal.blob)] [1, 2] =
      ⟨true, [1, 2], []⟩ :=
  ⟨rfl, C10_serialization_failure_atomic (fun _ => true) [("boom", PyVal.blob)]
    [1, 2] rfl⟩

/-- C1: in a broadcast where delivery to target `f` fails, `broadcast`
deregisters `f` before returning (`f` is absent from the final registry),
never records a successful delivery to `f`, still delivers to every other
registered target whose send succeeds, and returns without raising (the
`except` clause absorbs the send failure). -/
theorem C1_failed_target_deregistered (sendOk : Conn → Bool) (m : PyDict)
    (data : String) (active : List Conn) (f : Conn)
    (hser : dumps m = some data) (hf : f ∈ active) (hfail : sendOk f = false) :
    (broadcast sendOk m active).raised = false ∧
    f ∉ (broadcast sendOk m active).active ∧
    (∀ a ∈ (broadcast sendOk m active).attempts, a.target = f →
      a.ok = false) ∧
    (∀ c ∈ active, c ≠ f → sendOk c = true →
      (⟨c, data, true⟩ : Attempt) ∈ (broadcast sendOk m active).attempts) := by
  have hb : broadcast sendOk m active =
      ⟨false, (broadcastLoop sendOk data active active).1,
        (broadcastLoop sendOk data active active).2⟩ := by
    simp [broadcast, hser]
  rw [hb]
  refine ⟨rfl, ?_, ?_, ?_⟩
  · exact broadcastLoop_not_mem_of_fail sendOk data hfail active active
      (Nat.le_refl _)
  · intro a ha hat
    rw [broadcastLoop_attempts] at ha
    obtain ⟨c, _, hc2⟩ := List.mem_map.mp ha
    rw [← hc2] at hat ⊢
    simp only at hat ⊢
    rw [hat, hfail]
  · intro c hc _ hok
    rw [broadcastLoop_attempts]
    exact List.mem_map.mpr ⟨c, hc, by simp [hok]⟩

theorem C1_witness :
    dumps joinedMsg = some joinedData ∧
    2 ∈ ([1, 2, 3] : List Conn) ∧
    (fun c : Conn => decide (c ≠ 2)) 2 = false ∧
    ((broadcast (fun c : Conn => decide (c ≠ 2)) joinedMsg
        [1, 2, 3]).raised = false ∧
      2 ∉ (broadcast (fun c : Conn => decide (c ≠ 2)) joinedMsg
        [1, 2, 3]).active ∧
      (∀ a ∈ (broadcast (fun c : Conn => decide (c ≠ 2)) joinedMsg
          [1, 2, 3]).attempts, a.target = 2 → a.ok = false) ∧
      (∀ c ∈ ([1, 2, 3] : List Conn), c ≠ 2 →
        (fun c : Conn => decide (c ≠ 2)) c = true →
        (⟨c, joinedData, true⟩ : Attempt) ∈
          (broadcast (fun c : Conn => decide (c ≠ 2)) joinedMsg
            [1, 2, 3]).attempts)) :=
  ⟨by decide, by decide, by decide,
    C1_failed_target_deregistered (fun c : Conn => decide (c ≠ 2)) joinedMsg
      joinedData [1, 2, 3] 2 (by decide) (by decide) (by decide)⟩

/-- C2: a broadcast over a duplicate-free registry (the reachable registry
states) serializes the message once — every attempt carries the one serialized
payload — and walks a point-in-time snapshot of the registry: exactly one
delivery attempt per registered connection, in registry order, at most one
successful delivery per connection, nothing at all to a connection not in the
registry when iteration started, and the call returns without raising. -/
theorem C2_broadcast_snapshot_exactly_once (sendOk : Conn → Bool) (m : PyDict)
    (data : String) (active : List Conn)
    (hser : dumps m = some data) (hnd : active.Nodup) :
    (broadcast sendOk m active).raised = false ∧
    (broadcast sendOk m active).attempts.map (fun a => a.target) = active ∧
    (∀ a ∈ (broadcast sendOk m active).attempts, a.payload = data) ∧
    (∀ c : Conn,
      ((broadcast sendOk m active).attempts.filter
        (fun a => a.ok && decide (a.target = c))).length ≤ 1) ∧
    (∀ c : Conn, c ∉ active →
      ∀ a ∈ (broadcast sendOk m active).attempts, a.target ≠ c) := by
  have hb : broadcast sendOk m active =
      ⟨false, (broadcastLoop sendOk data active active).1,
        (broadcastLoop sendOk data active active).2⟩ := by
    simp [broadcast, hser]
  rw [hb]
  have hatt : (broadcastLoop sendOk data active active).2 =
      active.map (fun c => (⟨c, data, sendOk c⟩ : Attempt)) :=
    broadcastLoop_attempts sendOk data active active
  refine ⟨rfl, ?_, ?_, ?_, ?_⟩
  · rw [hatt, List.map_map]
    exact List.map_id active
  · intro a ha
    rw [hatt] at ha
    obtain ⟨c, _, hc2⟩ := List.mem_map.mp ha
    rw [← hc2]
  · intro c
    rw [hatt]
    have hinj : Function.Injective
        (fun t : Conn => (⟨t, data, sendOk t⟩ : Attempt)) := by
      intro a b hab
      exact congrArg Attempt.target hab
    have hndm : (active.map
        (fun t : Conn => (⟨t, data, sendOk t⟩ : Attempt))).Nodup :=
      hnd.map hinj
    have hndf := hndm.filter (fun a => a.ok && decide (a.target = c))
    apply length_le_one_of_nodup_const hndf (c := (⟨c, data, sendOk c⟩ : Attempt))
    intro x hx
    obtain ⟨hx1, hx2⟩ := List.mem_filter.mp hx
    obtain ⟨t, _, ht2⟩ := List.mem_map.mp hx1
    have htc : x.target = c := by
      simp only [Bool.and_eq_true, decide_eq_true_eq] at hx2
      exact hx2.2
    rw [← ht2] at htc ⊢
    simp only at htc
    rw [htc]
  · intro c hc a ha hat
    rw [hatt] at ha
    obtain ⟨t, ht1, ht2⟩ := List.mem_map.mp ha
    rw [← ht2] at hat
    simp only at hat
    rw [hat] at ht1
    exact hc ht1

theorem C2_witness :
    dumps joinedMsg = some joinedData ∧
    ([1, 2, 3] : List Conn).Nodup ∧
    ((broadcast (fun _ => true) joinedMsg [1, 2, 3]).raised = false ∧
      (broadcast (fun _ => true) joinedMsg [1, 2, 3]).attempts.map
        (fun a => a.target) = [1, 2, 3] ∧
      (∀ a ∈ (broadcast (fun _ => true) joinedMsg [1, 2, 3]).attempts,
        a.payload = joinedData) ∧
      (∀ c : Conn,
        ((broadcast (fun _ => true) joinedMsg [1, 2, 3]).attempts.filter
          (fun a => a.ok && decide (a.target = c))).length ≤ 1) ∧
      (∀ c : Conn, c ∉ ([1, 2, 3] : List Conn) →
        ∀ a ∈ (broadcast (fun _ => true) joinedMsg [1, 2, 3]).attempts,
          a.target ≠ c)) :=
  ⟨by decide, by decide,
    C2_broadcast_snapshot_exactly_once (fun _ => true) joinedMsg joinedData
      [1, 2, 3] (by decide) (by decide)⟩

/-- C5: on the termination of the read loop (the WebSocketDisconnect raised on
peer disconnect, explicit close, or read error), the driver deregisters the
connection — it is absent from the final registry — and then broadcasts the
system "Player left" message as its final broadcast, delivered to every
remaining registered connection whose send succeeds; every other healthy
connection survives the whole run, so the failure ends only this one
connection's loop, never the hub. -/
theorem C5_disconnect_deregisters_and_notifies (sendOk : Conn → Bool)
    (c : Conn) (inbound : List (String × String)) (active : List Conn)
    (hnd : active.Nodup) (hc : c ∉ active) :
    ((websocket_endpoint sendOk c inbound active).2.getLast?.map
      (fun call => call.message)) = some leftMsg ∧
    c ∉ (websocket_endpoint sendOk c inbound active).1 ∧
    (∀ x ∈ active, sendOk x = true →
      x ∈ (websocket_endpoint sendOk c inbound active).1) ∧
    (∀ lc, (websocket_endpoint sendOk c inbound active).2.getLast? = some lc →
      ∀ x ∈ active, sendOk x = true →
        (⟨x, leftData, true⟩ : Attempt) ∈ lc.result.attempts) := by
  have h1 : (websocket_endpoint sendOk c inbound active).1 =
      (broadcast sendOk leftMsg
        (disconnect c (chatLoop sendOk inbound
          (broadcast sendOk joinedMsg (connect c active)).active).1)).active :=
    rfl
  have h2 : (websocket_endpoint sendOk c inbound active).2 =
      ⟨joinedMsg, broadcast sendOk joinedMsg (connect c active)⟩ ::
        ((chatLoop sendOk inbound
            (broadcast sendOk joinedMsg (connect c active)).active).2 ++
          [⟨leftMsg, broadcast sendOk leftMsg
            (disconnect c (chatLoop sendOk inbound
              (broadcast sendOk joinedMsg (connect c active)).active).1)⟩]) :=
    rfl
  have hNa1 : (connect c active).Nodup := by
    rw [connect, List.nodup_append]
    refine ⟨hnd, by simp, ?_⟩
    intro a ha hac
    rw [List.mem_singleton] at hac
    exact hc (hac ▸ ha)
  have hsubK : (chatLoop sendOk inbound
      (broadcast sendOk joinedMsg (connect c active)).active).1.Sublist
      (connect c active) :=
    (chatLoop_active_sublist sendOk inbound _).trans
      (broadcast_active_sublist sendOk joinedMsg _)
  have hNK : (chatLoop sendOk inbound
      (broadcast sendOk joinedMsg (connect c active)).active).1.Nodup :=
    hNa1.sublist hsubK
  have hcA3 : c ∉ disconnect c (chatLoop sendOk inbound
      (broadcast sendOk joinedMsg (connect c active)).active).1 := by
    rw [disconnect_eq_erase]
    exact hNK.not_mem_erase
  have hmemA3 : ∀ x ∈ active, sendOk x = true →
      x ∈ disconnect c (chatLoop sendOk inbound
        (broadcast sendOk joinedMsg (connect c active)).active).1 := by
    intro x hx hokx
    have hx1 : x ∈ connect c active := by
      rw [connect]; exact List.mem_append_left _ hx
    have hx2 := broadcast_mem_active sendOk joinedMsg hokx hx1
    have hx3 := chatLoop_mem_active sendOk inbound hokx hx2
    have hxne : x ≠ c := fun he => hc (he ▸ hx)
    rw [disconnect_eq_erase]
    exact (List.mem_erase_of_ne hxne).mpr hx3
  refine ⟨?_, ?_, ?_, ?_⟩
  · rw [h2, ← List.cons_append, List.getLast?_concat]
    rfl
  · rw [h1]
    intro hmem
    exact hcA3 ((broadcast_active_sublist sendOk leftMsg _).subset hmem)
  · intro x hx hokx
    rw [h1]
    exact broadcast_mem_active sendOk leftMsg hokx (hmemA3 x hx hokx)
  · intro lc hlc x hx hokx
    rw [h2, ← List.cons_append, List.getLast?_concat] at hlc
    obtain rfl := (Option.some.inj hlc).symm
    have hbe : broadcast sendOk leftMsg
        (disconnect c (chatLoop sendOk inbound
          (broadcast sendOk joinedMsg (connect c active)).active).1) =
        ⟨false,
          (broadcastLoop sendOk leftData
            (disconnect c (chatLoop sendOk inbound
              (broadcast sendOk joinedMsg (connect c active)).active).1)
            (disconnect c (chatLoop sendOk inbound
              (broadcast sendOk joinedMsg (connect c active)).active).1)).1,
          (broadcastLoop sendOk leftData
            (disconnect c (chatLoop sendOk inbound
              (broadcast sendOk joinedMsg (connect c active)).active).1)
            (disconnect c (chatLoop sendOk inbound
              (broadcast sendOk joinedMsg (connect c active)).active).1)).2⟩ := by
      simp [broadcast, dumps_left]
    show (⟨x, leftData, true⟩ : Attempt) ∈
      (broadcast sendOk leftMsg
        (disconnect c (chatLoop sendOk inbound
          (broadcast sendOk joinedMsg (connect c active)).active).1)).attempts
    rw [hbe]
    simp only [broadcastLoop_attempts]
    exact List.mem_map.mpr ⟨x, hmemA3 x hx hokx, by simp [hokx]⟩

theorem C5_witness :
    ([1, 2] : List Conn).Nodup ∧ 3 ∉ ([1, 2] : List Conn) ∧
    (((websocket_endpoint (fun _ => true) 3 [("hi", "t0")] [1, 2]).2.getLast?.map
        (fun call => call.message)) = some leftMsg ∧
      3 ∉ (websocket_endpoint (fun _ => true) 3 [("hi", "t0")] [1, 2]).1 ∧
      (∀ x ∈ ([1, 2] : List Conn), (fun _ : Conn => true) x = true →
        x ∈ (websocket_endpoint (fun _ => true) 3 [("hi", "t0")] [1, 2]).1) ∧
      (∀ lc, (websocket_endpoint (fun _ => true) 3
            [("hi", "t0")] [1, 2]).2.getLast? = some lc →
        ∀ x ∈ ([1, 2] : List Conn), (fun _ : Conn => true) x = true →
          (⟨x, leftData, true⟩ : Attempt) ∈ lc.result.attempts)) :=
  ⟨by decide, by decide,
    C5_disconnect_deregisters_and_notifies (fun _ => true) 3 [("hi", "t0")]
      [1, 2] (by decide) (by decide)⟩

/-- C6: a new connection is first registered, then exactly one system
"Player joined" broadcast is made (the trace of an endpoint run is exactly one
joined notice, one chat per inbound frame, one left notice, so the joined
message occurs exactly once and no chat is broadcast for the join); its
delivery is attempted to every connection registered at that moment — the
registry with the new connection appended, so the joining peer itself is a
recipient and, its send succeeding, receives the notice. -/
theorem C6_join_broadcast (sendOk : Conn → Bool) (c : Conn)
    (inbound : List (String × String)) (active : List Conn)
    (hok : sendOk c = true) :
    (websocket_endpoint sendOk c inbound active).2.map
        (fun call => call.message) =
      joinedMsg :: (inbound.map (fun p => chatMsg p.1 p.2) ++ [leftMsg]) ∧
    ((websocket_endpoint sendOk c inbound active).2.map
      (fun call => call.message)).count joinedMsg = 1 ∧
    (∀ fc, (websocket_endpoint sendOk c inbound active).2.head? = some fc →
      fc.message = joinedMsg ∧
      fc.result.attempts.map (fun a => a.target) = active ++ [c] ∧
      (⟨c, joinedData, true⟩ : Attempt) ∈ fc.result.attempts) := by
  have htrace := websocket_endpoint_trace sendOk c inbound active
  refine ⟨htrace, ?_, ?_⟩
  · rw [htrace, List.count_cons_self]
    have hnotmem : joinedMsg ∉
        (inbound.map (fun p => chatMsg p.1 p.2) ++ [leftMsg]) := by
      intro hmem
      rcases List.mem_append.mp hmem with h | h
      · obtain ⟨p, _, hp2⟩ := List.mem_map.mp h
        have hlen := congrArg List.length hp2
        simp [chatMsg, joinedMsg] at hlen
      · rw [List.mem_singleton] at h
        exact absurd h (by decide)
    rw [List.count_eq_zero.mpr hnotmem]
  · intro fc hfc
    have hh : (websocket_endpoint sendOk c inbound active).2.head? =
        some ⟨joinedMsg, broadcast sendOk joinedMsg (connect c active)⟩ := rfl
    rw [hh] at hfc
    obtain rfl := (Option.some.inj hfc).symm
    have hbe : broadcast sendOk joinedMsg (connect c active) =
        ⟨false,
          (broadcastLoop sendOk joinedData (connect c active)
            (connect c active)).1,
          (broadcastLoop sendOk joinedData (connect c active)
            (connect c active)).2⟩ := by
      simp [broadcast, dumps_joined]
    refine ⟨rfl, ?_, ?_⟩
    · show (broadcast sendOk joinedMsg (connect c active)).attempts.map
          (fun a => a.target) = active ++ [c]
      rw [hbe]
      simp only [broadcastLoop_attempts]
      rw [List.map_map]
      exact List.map_id (connect c active)
    · show (⟨c, joinedData, true⟩ : Attempt) ∈
        (broadcast sendOk joinedMsg (connect c active)).attempts
      rw [hbe]
      simp only [broadcastLoop_attempts]
      refine List.mem_map.mpr ⟨c, ?_, by simp [hok]⟩
      rw [connect]
      exact List.mem_append_right _ (by simp)

theorem C6_witness :
    (fun _ : Conn => true) 7 = true ∧
    ((websocket_endpoint (fun _ => true) 7 [] [1]).2.map
        (fun call => call.message) =
      joinedMsg :: (([] : List (String × String)).map
        (fun p => chatMsg p.1 p.2) ++ [leftMsg]) ∧
    ((websocket_endpoint (fun _ => true) 7 [] [1]).2.map
      (fun call => call.message)).count joinedMsg = 1 ∧
    (∀ fc, (websocket_endpoint (fun _ => true) 7 [] [1]).2.head? = some fc →
      fc.message = joinedMsg ∧
      fc.result.attempts.map (fun a => a.target) = [1] ++ [7] ∧
      (⟨7, joinedData, true⟩ : Attempt) ∈ fc.result.attempts)) :=
  ⟨rfl, C6_join_broadcast (fun _ => true) 7 [] [1] rfl⟩

/-- C7: every text frame received from a connection is rebroadcast as exactly
one chat message — the run makes `inbound.length + 2` broadcast calls, and the
(i+1)-st call's message is the chat dict whose "type" is "chat", whose "text"
is the received text verbatim (whatever its content), and whose "ts" is the
timestamp taken at receipt; the chat dict always serializes. -/
theorem C7_chat_rebroadcast_verbatim (sendOk : Conn → Bool) (c : Conn)
    (inbound : List (String × String)) (active : List Conn) :
    (websocket_endpoint sendOk c inbound active).2.length =
      inbound.length + 2 ∧
    (∀ i (hi : i < inbound.length),
      ((websocket_endpoint sendOk c inbound active).2.get? (i + 1)).map
          (fun call => call.message) =
        some (chatMsg (inbound.get ⟨i, hi⟩).1 (inbound.get ⟨i, hi⟩).2) ∧
      (chatMsg (inbound.get ⟨i, hi⟩).1 (inbound.get ⟨i, hi⟩).2).lookup "type" =
        some (.str "chat") ∧
      (chatMsg (inbound.get ⟨i, hi⟩).1 (inbound.get ⟨i, hi⟩).2).lookup "text" =
        some (.str (inbound.get ⟨i, hi⟩).1) ∧
      (chatMsg (inbound.get ⟨i, hi⟩).1 (inbound.get ⟨i, hi⟩).2).lookup "ts" =
        some (.str (inbound.get ⟨i, hi⟩).2) ∧
      (dumps (chatMsg (inbound.get ⟨i, hi⟩).1
        (inbound.get ⟨i, hi⟩).2)).isSome) := by
  have htrace := websocket_endpoint_trace sendOk c inbound active
  constructor
  · have hlen := congrArg List.length htrace
    simp at hlen
    omega
  · intro i hi
    refine ⟨?_, rfl, rfl, rfl, dumps_chat_isSome _ _⟩
    rw [← List.get?_map, htrace, List.get?_cons_succ,
      List.get?_append (by simpa using hi), List.get?_map,
      List.get?_eq_get hi]
    rfl

theorem C7_witness :
    (websocket_endpoint (fun _ => true) 3 [("hello", "t0")] [1, 2]).2.length =
      3 ∧
    ((websocket_endpoint (fun _ => true) 3
        [("hello", "t0")] [1, 2]).2.get? 1).map (fun call => call.message) =
      some (chatMsg "hello" "t0") :=
  ⟨(C7_chat_rebroadcast_verbatim (fun _ => true) 3 [("hello", "t0")]
      [1, 2]).1,
    ((C7_chat_rebroadcast_verbatim (fun _ => true) 3 [("hello", "t0")]
      [1, 2]).2 0 (by decide)).1⟩
